import Mathlib

/-!
Verification of the synthesizer voice engine in `src/lib.rs` of
`my_vst_synth`: oscillator bank, ADSR envelope, low-pass filter, LFO,
MIDI event handling and the six-slot parameter store.  All machine
floats (`f32`) are embedded as real numbers; randomness of the Noise
oscillator is supplied as an explicit oracle argument.
-/

noncomputable section

/-- Waveform variants of `OscType` in the source. -/
inductive OscType
  | Sine
  | Saw
  | Square
  | Triangle
  | Noise
  deriving DecidableEq

/-- `Oscillator` struct: running phase, frequency in Hz, waveform. -/
structure Oscillator where
  phase : ℝ
  freq : ℝ
  osc_type : OscType

/-- `Oscillator::new`: phase 0, frequency 440 Hz. -/
def Oscillator.new (t : OscType) : Oscillator :=
  { phase := 0, freq := 440, osc_type := t }

/-- `Oscillator::generate_sample`: emit the waveform value at the current
phase (the `noise` argument stands for the `rand` draw of the Noise arm),
then advance the phase by `freq / sample_rate`, wrapping by subtracting 1
when the result is at least 1.  Returns the sample and the updated
oscillator. -/
def Oscillator.generate_sample (o : Oscillator) (sample_rate : ℝ) (noise : ℝ) :
    ℝ × Oscillator :=
  let output : ℝ :=
    match o.osc_type with
    | OscType.Sine => Real.sin (o.phase * 2 * Real.pi)
    | OscType.Saw => 1 - 2 * o.phase
    | OscType.Square => if o.phase < 0.5 then 1 else -1
    | OscType.Triangle =>
        if o.phase < 0.5 then 4 * o.phase - 1 else 3 - 4 * o.phase
    | OscType.Noise => noise
  let phase1 := o.phase + o.freq / sample_rate
  let phase2 := if phase1 ≥ 1 then phase1 - 1 else phase1
  (output, { o with phase := phase2 })

/-- Iterate `generate_sample` `n` times, feeding the noise oracle by call
index, keeping only the oscillator state. -/
def Oscillator.iterate (o : Oscillator) (sample_rate : ℝ) (noise : ℕ → ℝ) :
    ℕ → Oscillator
  | 0 => o
  | n + 1 =>
      ((Oscillator.iterate o sample_rate noise n).generate_sample sample_rate
        (noise n)).2

/-- Closed-form waveform value, written from the specification text:
Sine is `sin(2π·phase)`, Saw is `1 − 2·phase`, Square is `+1` below phase
0.5 and `−1` otherwise, Triangle is `4·phase−1` below 0.5 and `3−4·phase`
otherwise.  (Noise has no closed form; it is mapped to the oracle-free
value 0 here and excluded from the comparison theorem.) -/
def waveformClosedForm (t : OscType) (phase : ℝ) : ℝ :=
  match t with
  | OscType.Sine => Real.sin (2 * Real.pi * phase)
  | OscType.Saw => 1 - 2 * phase
  | OscType.Square => if phase < 0.5 then 1 else -1
  | OscType.Triangle => if phase < 0.5 then 4 * phase - 1 else 3 - 4 * phase
  | OscType.Noise => 0

theorem Oscillator.generate_sample_freq (o : Oscillator) (sr x : ℝ) :
    (o.generate_sample sr x).2.freq = o.freq := rfl

theorem Oscillator.generate_sample_type (o : Oscillator) (sr x : ℝ) :
    (o.generate_sample sr x).2.osc_type = o.osc_type := rfl

theorem Oscillator.generate_sample_phase_mem (o : Oscillator) (sr x : ℝ)
    (h0 : 0 ≤ o.phase) (h1 : o.phase < 1)
    (hr0 : 0 < o.freq / sr) (hr1 : o.freq / sr < 1) :
    0 ≤ (o.generate_sample sr x).2.phase ∧ (o.generate_sample sr x).2.phase < 1 := by
  unfold Oscillator.generate_sample
  dsimp only
  split
  · constructor
    · linarith
    · linarith
  · constructor
    · linarith
    · linarith

/-- Envelope stage variants of `EnvelopeStage` in the source. -/
inductive EnvelopeStage
  | Idle
  | Attack
  | Decay
  | Sustain
  | Release

/-- `Envelope` struct: ADSR times (seconds), sustain level, stage,
current level, sample rate. -/
structure Envelope where
  attack : ℝ
  decay : ℝ
  sustain : ℝ
  release : ℝ
  stage : EnvelopeStage
  level : ℝ
  sample_rate : ℝ

/-- `Envelope::new`: attack 0.01, decay 0.1, sustain 0.5, release 0.2,
stage Idle, level 0. -/
def Envelope.new (sample_rate : ℝ) : Envelope :=
  { attack := 0.01, decay := 0.1, sustain := 0.5, release := 0.2,
    stage := EnvelopeStage.Idle, level := 0, sample_rate := sample_rate }

/-- `Envelope::trigger`: stage to Attack, level reset to 0. -/
def Envelope.trigger (e : Envelope) : Envelope :=
  { e with stage := EnvelopeStage.Attack, level := 0 }

/-- `Envelope::r_stage`: stage to Release. -/
def Envelope.r_stage (e : Envelope) : Envelope :=
  { e with stage := EnvelopeStage.Release }

/-- `Envelope::process`: one state-machine step per sample; returns the
level reached and the updated envelope. -/
def Envelope.process (e : Envelope) : ℝ × Envelope :=
  match e.stage with
  | EnvelopeStage.Idle => (0, { e with level := 0 })
  | EnvelopeStage.Attack =>
      let l := e.level + 1 / (e.attack * e.sample_rate)
      if l ≥ 1 then (1, { e with level := 1, stage := EnvelopeStage.Decay })
      else (l, { e with level := l })
  | EnvelopeStage.Decay =>
      let l := e.level - (1 - e.sustain) / (e.decay * e.sample_rate)
      if l ≤ e.sustain then
        (e.sustain, { e with level := e.sustain, stage := EnvelopeStage.Sustain })
      else (l, { e with level := l })
  | EnvelopeStage.Sustain => (e.level, e)
  | EnvelopeStage.Release =>
      let l := e.level - e.level / (e.release * e.sample_rate)
      if l ≤ 0.001 then (0, { e with level := 0, stage := EnvelopeStage.Idle })
      else (l, { e with level := l })

/-- `LowPassFilter` struct: cutoff Hz, resonance, two delay states. -/
structure LowPassFilter where
  cutoff : ℝ
  resonance : ℝ
  y1 : ℝ
  y2 : ℝ

/-- `LowPassFilter::new`: cutoff 1000, resonance 0.5, zero delay states. -/
def LowPassFilter.new : LowPassFilter :=
  { cutoff := 1000, resonance := 0.5, y1 := 0, y2 := 0 }

/-- `LowPassFilter::process`: one-pole coefficient from the cutoff, a
two-stage cascade updating `y1`, `y2`.  The local `_r` computed from
`resonance` in the source is bound and discarded exactly as there. -/
def LowPassFilter.process (f : LowPassFilter) (input sample_rate : ℝ) :
    ℝ × LowPassFilter :=
  let c := 2 * Real.pi * f.cutoff / sample_rate
  let _r := 1 / (2 * (1 - f.resonance))
  let k := c / (1 + c)
  let output := input * k + f.y1 * (1 - k)
  let y1 := output * k + f.y2 * (1 - k)
  let y2 := output
  (output, { f with y1 := y1, y2 := y2 })

/-- `LFO` struct: running phase and frequency. -/
structure LFO where
  phase : ℝ
  freq : ℝ

/-- `LFO::new`: phase 0, frequency 2.4 Hz. -/
def LFO.new : LFO :=
  { phase := 0, freq := 2.4 }

/-- `LFO::process`: sine of the current phase, then the same phase
advance and wrap as the oscillator. -/
def LFO.process (l : LFO) (sample_rate : ℝ) : ℝ × LFO :=
  let output := Real.sin (l.phase * 2 * Real.pi)
  let phase1 := l.phase + l.freq / sample_rate
  let phase2 := if phase1 ≥ 1 then phase1 - 1 else phase1
  (output, { l with phase := phase2 })

/-- `SynthParams`: the six engineering-unit parameter values held in
`AtomicFloat` cells in the source. -/
structure SynthParams where
  osc1_freq : ℝ
  osc2_freq : ℝ
  filter_cutoff : ℝ
  filter_resonance : ℝ
  lfo_freq : ℝ
  lfo_amount : ℝ

/-- Default `SynthParams` built in `MySynth::default`. -/
def SynthParams.default : SynthParams :=
  { osc1_freq := 440, osc2_freq := 440, filter_cutoff := 1000,
    filter_resonance := 0.5, lfo_freq := 1, lfo_amount := 0.5 }

/-- `SynthParams::get_parameter`: normalized read-back of each slot;
any index outside 0..5 yields 0. -/
def SynthParams.get_parameter (p : SynthParams) (index : ℤ) : ℝ :=
  if index = 0 then p.osc1_freq / 20000
  else if index = 1 then p.osc2_freq / 20000
  else if index = 2 then p.filter_cutoff / 20000
  else if index = 3 then p.filter_resonance
  else if index = 4 then p.lfo_freq / 10
  else if index = 5 then p.lfo_amount
  else 0

/-- `SynthParams::set_parameter`: scale the normalized value into
engineering units and store it; any index outside 0..5 is a no-op. -/
def SynthParams.set_parameter (p : SynthParams) (index : ℤ) (value : ℝ) :
    SynthParams :=
  if index = 0 then { p with osc1_freq := value * 20000 }
  else if index = 1 then { p with osc2_freq := value * 20000 }
  else if index = 2 then { p with filter_cutoff := value * 20000 }
  else if index = 3 then { p with filter_resonance := value }
  else if index = 4 then { p with lfo_freq := value * 20 }
  else if index = 5 then { p with lfo_amount := value * 2 }
  else p

/-- The fixed five-slot oscillator bank `[Oscillator; 5]` of `MySynth`. -/
structure OscBank where
  osc0 : Oscillator
  osc1 : Oscillator
  osc2 : Oscillator
  osc3 : Oscillator
  osc4 : Oscillator

/-- Default bank built in `MySynth::default`: Sine, Saw, Square,
Triangle, Noise. -/
def OscBank.default : OscBank :=
  { osc0 := Oscillator.new OscType.Sine,
    osc1 := Oscillator.new OscType.Saw,
    osc2 := Oscillator.new OscType.Square,
    osc3 := Oscillator.new OscType.Triangle,
    osc4 := Oscillator.new OscType.Noise }

/-- The `for osc in &mut self.oscillators` accumulation in
`MySynth::process`: each oscillator generates one sample (the noise
oracle is indexed by slot) and the samples are summed in slot order. -/
def OscBank.generateAll (b : OscBank) (sample_rate : ℝ) (noise : Fin 5 → ℝ) :
    ℝ × OscBank :=
  let r0 := b.osc0.generate_sample sample_rate (noise 0)
  let r1 := b.osc1.generate_sample sample_rate (noise 1)
  let r2 := b.osc2.generate_sample sample_rate (noise 2)
  let r3 := b.osc3.generate_sample sample_rate (noise 3)
  let r4 := b.osc4.generate_sample sample_rate (noise 4)
  (0 + r0.1 + r1.1 + r2.1 + r3.1 + r4.1,
   { osc0 := r0.2, osc1 := r1.2, osc2 := r2.2, osc3 := r3.2, osc4 := r4.2 })

/-- Rust `f32::clamp`. -/
def rustClamp (x lo hi : ℝ) : ℝ := min (max x lo) hi

/-- `MySynth` state: sample rate, oscillator bank, envelope, filter,
LFO, current note, gate flag, shared parameter store. -/
structure MySynth where
  sample_rate : ℝ
  oscillators : OscBank
  envelope : Envelope
  filter : LowPassFilter
  lfo : LFO
  note : ℕ
  note_on : Bool
  params : SynthParams

/-- `MySynth::default`. -/
def MySynth.default : MySynth :=
  { sample_rate := 44100, oscillators := OscBank.default,
    envelope := Envelope.new 44100, filter := LowPassFilter.new,
    lfo := LFO.new, note := 0, note_on := false,
    params := SynthParams.default }

/-- One iteration of the sample loop in `MySynth::process`: when the
gate is off the output stays 0 and nothing is touched; when on, sum the
oscillators, scale by 0.5, multiply by the envelope, modulate the filter
cutoff by the LFO (clamped to [20, 20000]), and run the filter.  Returns
the mono value written to every channel and the updated synth. -/
def MySynth.processSample (s : MySynth) (noise : Fin 5 → ℝ) : ℝ × MySynth :=
  if s.note_on then
    let g := s.oscillators.generateAll s.sample_rate noise
    let output1 := g.1 * 0.5
    let ep := s.envelope.process
    let output2 := output1 * ep.1
    let lp := s.lfo.process s.sample_rate
    let cutoff_mod := s.params.filter_cutoff * (1 + lp.1 * s.params.lfo_amount)
    let filter1 := { s.filter with cutoff := rustClamp cutoff_mod 20 20000 }
    let fp := filter1.process output2 s.sample_rate
    (fp.1,
     { s with oscillators := g.2, envelope := ep.2, lfo := lp.2,
              filter := fp.2 })
  else
    (0, s)

/-- `MySynth::process` over a block of `n` samples: the per-sample noise
oracle is indexed by sample then slot.  Returns the list of mono sample
values in order and the final state. -/
def MySynth.processBlock (s : MySynth) (n : ℕ) (noise : ℕ → Fin 5 → ℝ) :
    List ℝ × MySynth :=
  match n with
  | 0 => ([], s)
  | m + 1 =>
      let r := s.processSample (noise 0)
      let rest := r.2.processBlock m (fun i => noise (i + 1))
      (r.1 :: rest.1, rest.2)

/-- The audio buffer written by `MySynth::process`: every one of the
`channels` output channels receives the same mono sample list. -/
def renderBuffer (channels : ℕ) (mono : List ℝ) : List (List ℝ) :=
  List.replicate channels mono

/-- `midi_pitch_to_freq` casts the `u8` pitch to `i8` before subtracting
69; this is that cast, yielding an integer in [-128, 127]. -/
def i8_of_u8 (pitch : ℕ) : ℤ :=
  ((pitch : ℤ) % 256 + 128) % 256 - 128

/-- `midi_pitch_to_freq`: equal-tempered mapping
`exp2((pitch as i8 − 69) / 12) · 440`. -/
def midi_pitch_to_freq (pitch : ℕ) : ℝ :=
  (2 : ℝ) ^ ((((i8_of_u8 pitch - 69 : ℤ) : ℝ)) / 12) * 440

/-- An entry of the `Events` list fed to `process_events`: a 3-byte
MIDI message or any other (ignored) event kind. -/
inductive VstEvent
  | midi (data0 data1 data2 : ℕ)
  | other

/-- The per-event match in `MySynth::process_events`: status 128
releases the envelope when the pitch matches the current note; status
144 stores the note, retunes oscillators 0 and 1 (the latter detuned by
1%), triggers the envelope and raises the gate; all else is ignored. -/
def MySynth.handleEvent (s : MySynth) (ev : VstEvent) : MySynth :=
  match ev with
  | VstEvent.midi d0 d1 _ =>
      if d0 = 128 then
        if d1 = s.note then { s with envelope := s.envelope.r_stage } else s
      else if d0 = 144 then
        let freq := midi_pitch_to_freq d1
        { s with
          note := d1,
          oscillators :=
            { s.oscillators with
              osc0 := { s.oscillators.osc0 with freq := freq },
              osc1 := { s.oscillators.osc1 with freq := freq * 1.01 } },
          envelope := s.envelope.trigger,
          note_on := true }
      else s
  | VstEvent.other => s

/-- `MySynth::process_events`: fold the handler over the event list. -/
def MySynth.process_events (s : MySynth) (events : List VstEvent) : MySynth :=
  events.foldl MySynth.handleEvent s

/-- One host call into the synth: an event batch or an audio render of
`n` samples with its noise oracle. -/
inductive SynthAction
  | events (evs : List VstEvent)
  | render (n : ℕ) (noise : ℕ → Fin 5 → ℝ)

/-- Apply one host call. -/
def MySynth.runAction (s : MySynth) : SynthAction → MySynth
  | SynthAction.events evs => s.process_events evs
  | SynthAction.render n noise => (s.processBlock n noise).2

/-- Apply a sequence of host calls in order. -/
def MySynth.runActions (s : MySynth) (acts : List SynthAction) : MySynth :=
  acts.foldl MySynth.runAction s

/-- Valid engineering-unit range of each parameter slot, written from
the specification's parameter table: the three frequency-style slots map
normalized [0,1] onto [0, 20000] Hz, resonance is [0,1), LFO frequency
is [0, 20] Hz, LFO amount is [0, 2]. -/
def specParamInRange (index : ℤ) (v : ℝ) : Prop :=
  if index = 0 then 0 ≤ v ∧ v ≤ 20000
  else if index = 1 then 0 ≤ v ∧ v ≤ 20000
  else if index = 2 then 0 ≤ v ∧ v ≤ 20000
  else if index = 3 then 0 ≤ v ∧ v < 1
  else if index = 4 then 0 ≤ v ∧ v ≤ 20
  else if index = 5 then 0 ≤ v ∧ v ≤ 2
  else True

/-- C10: for any index outside 0..5, `get_parameter` returns 0 and
`set_parameter` leaves the whole store unchanged. -/
theorem parameter_out_of_range_noop (p : SynthParams) (v : ℝ) (i : ℤ)
    (h : i < 0 ∨ 5 < i) :
    p.get_parameter i = 0 ∧ p.set_parameter i v = p := by
  have h0 : i ≠ 0 := by omega
  have h1 : i ≠ 1 := by omega
  have h2 : i ≠ 2 := by omega
  have h3 : i ≠ 3 := by omega
  have h4 : i ≠ 4 := by omega
  have h5 : i ≠ 5 := by omega
  unfold SynthParams.get_parameter SynthParams.set_parameter
  simp [h0, h1, h2, h3, h4, h5]

theorem parameter_out_of_range_noop_witness :
    SynthParams.default.get_parameter 6 = 0 ∧
    SynthParams.default.set_parameter 6 0.3 = SynthParams.default :=
  parameter_out_of_range_noop SynthParams.default 0.3 6 (Or.inr (by norm_num))

/-- C2 counterexample: `set_parameter` at index 3 (filter resonance)
with input 2 stores the value 2, which lies outside the valid resonance
range [0,1): no clamping happened on write. -/
theorem set_parameter_no_clamp_counterexample :
    (SynthParams.default.set_parameter 3 2).filter_resonance = 2 ∧
    ¬ specParamInRange 3 (SynthParams.default.set_parameter 3 2).filter_resonance := by
  have hv : (SynthParams.default.set_parameter 3 2).filter_resonance = 2 := by
    unfold SynthParams.set_parameter
    norm_num
  refine ⟨hv, ?_⟩
  rw [hv]
  unfold specParamInRange
  norm_num

/-- C2 amended: `set_parameter` applies no clamping at all; for each
index 0..5 the stored engineering-unit value is exactly the input times
that slot's fixed scale factor (20000 for indices 0-2, 1 for index 3,
20 for index 4, 2 for index 5), whatever the input. -/
theorem set_parameter_stores_scaled (p : SynthParams) (x : ℝ) :
    (p.set_parameter 0 x).osc1_freq = x * 20000 ∧
    (p.set_parameter 1 x).osc2_freq = x * 20000 ∧
    (p.set_parameter 2 x).filter_cutoff = x * 20000 ∧
    (p.set_parameter 3 x).filter_resonance = x ∧
    (p.set_parameter 4 x).lfo_freq = x * 20 ∧
    (p.set_parameter 5 x).lfo_amount = x * 2 := by
  unfold SynthParams.set_parameter
  norm_num

/-- C1 counterexample: setting parameter 4 (LFO frequency) to the
normalized value 1 and reading it back yields 2, not 1: the set path
scales by 20 while the get path divides by 10. -/
theorem parameter_round_trip_counterexample :
    (SynthParams.default.set_parameter 4 1).get_parameter 4 = 2 ∧
    (2 : ℝ) ≠ 1 := by
  constructor
  · unfold SynthParams.set_parameter SynthParams.get_parameter
    norm_num
  · norm_num

/-- C1 amended: for indices 0..3 the set-then-get round trip returns
the written normalized value exactly; for indices 4 and 5 it returns
twice the written value (set scales by 20 and 2, get divides by 10 and
1 respectively). -/
theorem parameter_round_trip_amended (p : SynthParams) (x : ℝ)
    (hx0 : 0 ≤ x) (hx1 : x ≤ 1) :
    (∀ i : ℤ, 0 ≤ i → i ≤ 3 → (p.set_parameter i x).get_parameter i = x) ∧
    (p.set_parameter 4 x).get_parameter 4 = 2 * x ∧
    (p.set_parameter 5 x).get_parameter 5 = 2 * x := by
  refine ⟨?_, ?_, ?_⟩
  · intro i hi0 hi3
    interval_cases i <;>
      · unfold SynthParams.set_parameter SynthParams.get_parameter
        norm_num
        try ring
  · unfold SynthParams.set_parameter SynthParams.get_parameter
    norm_num
    ring
  · unfold SynthParams.set_parameter SynthParams.get_parameter
    norm_num
    ring

theorem parameter_round_trip_amended_witness :
    (SynthParams.default.set_parameter 2 0.25).get_parameter 2 = 0.25 ∧
    (SynthParams.default.set_parameter 4 0.25).get_parameter 4 = 2 * 0.25 :=
  ⟨(parameter_round_trip_amended SynthParams.default 0.25 (by norm_num)
      (by norm_num)).1 2 (by norm_num) (by norm_num),
   (parameter_round_trip_amended SynthParams.default 0.25 (by norm_num)
      (by norm_num)).2.1⟩

/-- C3: the filter output and the updated delay states depend only on
the cutoff, the delay states, the input and the sample rate — two
filters agreeing on those but differing in resonance behave
identically, since resonance never reaches the transfer function. -/
theorem filter_resonance_inert (f1 f2 : LowPassFilter)
    (hc : f1.cutoff = f2.cutoff) (hy1 : f1.y1 = f2.y1) (hy2 : f1.y2 = f2.y2)
    (input sample_rate : ℝ) :
    (f1.process input sample_rate).1 = (f2.process input sample_rate).1 ∧
    (f1.process input sample_rate).2.y1 = (f2.process input sample_rate).2.y1 ∧
    (f1.process input sample_rate).2.y2 = (f2.process input sample_rate).2.y2 := by
  unfold LowPassFilter.process
  dsimp only
  rw [hc, hy1, hy2]
  exact ⟨rfl, rfl, rfl⟩

theorem filter_resonance_inert_witness :
    ((⟨1000, 0.2, 0, 0⟩ : LowPassFilter).process 1 44100).1 =
      ((⟨1000, 0.9, 0, 0⟩ : LowPassFilter).process 1 44100).1 :=
  (filter_resonance_inert ⟨1000, 0.2, 0, 0⟩ ⟨1000, 0.9, 0, 0⟩ rfl rfl rfl
    1 44100).1

theorem Oscillator.iterate_freq (o : Oscillator) (sr : ℝ) (noise : ℕ → ℝ)
    (n : ℕ) : (o.iterate sr noise n).freq = o.freq := by
  induction n with
  | zero => rfl
  | succ m ih =>
      rw [Oscillator.iterate, Oscillator.generate_sample_freq, ih]

/-- C7: an oscillator whose phase starts in [0,1) and whose per-sample
increment `freq / sample_rate` lies strictly between 0 and 1 keeps its
phase in [0,1) after any number of `generate_sample` calls. -/
theorem oscillator_phase_invariant (o : Oscillator) (sr : ℝ) (noise : ℕ → ℝ)
    (h0 : 0 ≤ o.phase) (h1 : o.phase < 1)
    (hr0 : 0 < o.freq / sr) (hr1 : o.freq / sr < 1) (n : ℕ) :
    0 ≤ (o.iterate sr noise n).phase ∧ (o.iterate sr noise n).phase < 1 := by
  induction n with
  | zero => exact ⟨h0, h1⟩
  | succ m ih =>
      have hf : (o.iterate sr noise m).freq = o.freq :=
        Oscillator.iterate_freq o sr noise m
      rw [Oscillator.iterate]
      exact Oscillator.generate_sample_phase_mem _ _ _ ih.1 ih.2
        (by rw [hf]; exact hr0) (by rw [hf]; exact hr1)

theorem oscillator_phase_invariant_witness :
    0 ≤ ((⟨0, 440, OscType.Sine⟩ : Oscillator).iterate 44100 (fun _ => 0) 3).phase ∧
    ((⟨0, 440, OscType.Sine⟩ : Oscillator).iterate 44100 (fun _ => 0) 3).phase < 1 :=
  oscillator_phase_invariant ⟨0, 440, OscType.Sine⟩ 44100 (fun _ => 0)
    (by norm_num) (by norm_num) (by norm_num) (by norm_num) 3

/-- C8: for a phase in [0,1), the sample produced by `generate_sample`
for each deterministic waveform equals the specification's closed form:
Sine `sin(2π·phase)`, Saw `1 − 2·phase`, Square `+1` below phase 0.5
else `−1`, Triangle `4·phase−1` below 0.5 else `3−4·phase`. -/
theorem generate_sample_closed_form (o : Oscillator) (sr x : ℝ)
    (h0 : 0 ≤ o.phase) (h1 : o.phase < 1)
    (hn : o.osc_type ≠ OscType.Noise) :
    (o.generate_sample sr x).1 = waveformClosedForm o.osc_type o.phase := by
  obtain ⟨p, fr, t⟩ := o
  cases t with
  | Sine =>
      show Real.sin (p * 2 * Real.pi) = Real.sin (2 * Real.pi * p)
      ring_nf
  | Saw => rfl
  | Square => rfl
  | Triangle => rfl
  | Noise => exact absurd rfl hn

theorem generate_sample_closed_form_witness :
    0 ≤ (0.25 : ℝ) ∧
    ((⟨0.25, 440, OscType.Saw⟩ : Oscillator).generate_sample 44100 0).1 =
      waveformClosedForm OscType.Saw 0.25 :=
  ⟨by norm_num,
   generate_sample_closed_form ⟨0.25, 440, OscType.Saw⟩ 44100 0
     (by norm_num) (by norm_num) (by decide)⟩

/-- One call into the envelope from the synth: a `process` step, a
`trigger`, or an `r_stage` release. -/
inductive EnvAct
  | proc
  | trig
  | rel

/-- Apply one envelope call, keeping only the state. -/
def Envelope.applyAct (e : Envelope) : EnvAct → Envelope
  | EnvAct.proc => e.process.2
  | EnvAct.trig => e.trigger
  | EnvAct.rel => e.r_stage

/-- Apply a sequence of envelope calls in order. -/
def Envelope.applyActs (e : Envelope) (acts : List EnvAct) : Envelope :=
  acts.foldl Envelope.applyAct e

/-- Well-formed envelope constants: positive time constants and sample
rate, sustain level within [0,1]. -/
def EnvelopeWF (e : Envelope) : Prop :=
  0 < e.attack ∧ 0 < e.decay ∧ 0 < e.release ∧ 0 < e.sample_rate ∧
  0 ≤ e.sustain ∧ e.sustain ≤ 1

/-- The envelope level lies in the unit interval. -/
def LevelInUnit (e : Envelope) : Prop := 0 ≤ e.level ∧ e.level ≤ 1

theorem Envelope.process_preserves (e : Envelope)
    (hw : EnvelopeWF e) (hl : LevelInUnit e) :
    EnvelopeWF e.process.2 ∧ LevelInUnit e.process.2 := by
  obtain ⟨ha, hd, hr, hsr, hs0, hs1⟩ := hw
  obtain ⟨hl0, hl1⟩ := hl
  unfold Envelope.process
  cases e.stage <;> dsimp only
  case Idle =>
    exact ⟨⟨ha, hd, hr, hsr, hs0, hs1⟩, le_refl 0, by norm_num⟩
  case Attack =>
    have hinc : 0 < 1 / (e.attack * e.sample_rate) :=
      one_div_pos.mpr (mul_pos ha hsr)
    split_ifs with hge
    · exact ⟨⟨ha, hd, hr, hsr, hs0, hs1⟩, by norm_num, le_refl 1⟩
    · refine ⟨⟨ha, hd, hr, hsr, hs0, hs1⟩, by linarith, by linarith⟩
  case Decay =>
    have hdec : 0 ≤ (1 - e.sustain) / (e.decay * e.sample_rate) :=
      div_nonneg (by linarith) (mul_pos hd hsr).le
    split_ifs with hle
    · exact ⟨⟨ha, hd, hr, hsr, hs0, hs1⟩, hs0, hs1⟩
    · push_neg at hle
      refine ⟨⟨ha, hd, hr, hsr, hs0, hs1⟩, by linarith, by linarith⟩
  case Sustain =>
    exact ⟨⟨ha, hd, hr, hsr, hs0, hs1⟩, hl0, hl1⟩
  case Release =>
    have hdec : 0 ≤ e.level / (e.release * e.sample_rate) :=
      div_nonneg hl0 (mul_pos hr hsr).le
    split_ifs with hle
    · exact ⟨⟨ha, hd, hr, hsr, hs0, hs1⟩, le_refl 0, by norm_num⟩
    · push_neg at hle
      refine ⟨⟨ha, hd, hr, hsr, hs0, hs1⟩, by linarith, by linarith⟩

theorem Envelope.applyAct_preserves (e : Envelope) (a : EnvAct)
    (hw : EnvelopeWF e) (hl : LevelInUnit e) :
    EnvelopeWF (e.applyAct a) ∧ LevelInUnit (e.applyAct a) := by
  cases a with
  | proc => exact Envelope.process_preserves e hw hl
  | trig =>
      obtain ⟨ha, hd, hr, hsr, hs0, hs1⟩ := hw
      exact ⟨⟨ha, hd, hr, hsr, hs0, hs1⟩, le_refl 0,
        by show (0 : ℝ) ≤ 1; norm_num⟩
  | rel =>
      obtain ⟨ha, hd, hr, hsr, hs0, hs1⟩ := hw
      obtain ⟨hl0, hl1⟩ := hl
      exact ⟨⟨ha, hd, hr, hsr, hs0, hs1⟩, hl0, hl1⟩

theorem Envelope.applyActs_preserves (acts : List EnvAct) (e : Envelope)
    (hw : EnvelopeWF e) (hl : LevelInUnit e) :
    EnvelopeWF (e.applyActs acts) ∧ LevelInUnit (e.applyActs acts) := by
  induction acts generalizing e with
  | nil => exact ⟨hw, hl⟩
  | cons a rest ih =>
      have h := Envelope.applyAct_preserves e a hw hl
      exact ih (e.applyAct a) h.1 h.2

/-- C6: with positive attack, decay, release and sample rate, sustain in
[0,1] and level in [0,1], the level is still in [0,1] after any sequence
of `process`, `trigger` and `r_stage` calls. -/
theorem envelope_level_in_unit (e : Envelope)
    (ha : 0 < e.attack) (hd : 0 < e.decay) (hr : 0 < e.release)
    (hsr : 0 < e.sample_rate) (hs0 : 0 ≤ e.sustain) (hs1 : e.sustain ≤ 1)
    (hl0 : 0 ≤ e.level) (hl1 : e.level ≤ 1) (acts : List EnvAct) :
    0 ≤ (e.applyActs acts).level ∧ (e.applyActs acts).level ≤ 1 :=
  (Envelope.applyActs_preserves acts e ⟨ha, hd, hr, hsr, hs0, hs1⟩
    ⟨hl0, hl1⟩).2

theorem envelope_level_in_unit_witness :
    0 ≤ ((Envelope.new 44100).applyActs
          [EnvAct.trig, EnvAct.proc, EnvAct.proc, EnvAct.rel, EnvAct.proc]).level ∧
    ((Envelope.new 44100).applyActs
          [EnvAct.trig, EnvAct.proc, EnvAct.proc, EnvAct.rel, EnvAct.proc]).level ≤ 1 :=
  envelope_level_in_unit (Envelope.new 44100)
    (by norm_num [Envelope.new]) (by norm_num [Envelope.new])
    (by norm_num [Envelope.new]) (by norm_num [Envelope.new])
    (by norm_num [Envelope.new]) (by norm_num [Envelope.new])
    (by norm_num [Envelope.new]) (by norm_num [Envelope.new])
    [EnvAct.trig, EnvAct.proc, EnvAct.proc, EnvAct.rel, EnvAct.proc]

theorem MySynth.processSample_gate_off (s : MySynth) (noise : Fin 5 → ℝ)
    (h : s.note_on = false) : s.processSample noise = (0, s) := by
  unfold MySynth.processSample
  rw [h]
  simp

theorem MySynth.processBlock_gate_off (n : ℕ) (s : MySynth)
    (noise : ℕ → Fin 5 → ℝ) (h : s.note_on = false) :
    s.processBlock n noise = (List.replicate n 0, s) := by
  induction n generalizing noise with
  | zero => rfl
  | succ m ih =>
      unfold MySynth.processBlock
      rw [MySynth.processSample_gate_off s (noise 0) h]
      dsimp only
      rw [ih (fun i => noise (i + 1))]
      rfl

/-- C4: when the gate is off, a render call writes 0 to every output
channel at every sample index and leaves the entire synth state (all
oscillators, envelope, LFO and filter) untouched. -/
theorem render_gate_off_silent (s : MySynth) (n channels : ℕ)
    (noise : ℕ → Fin 5 → ℝ) (h : s.note_on = false) :
    (s.processBlock n noise).1 = List.replicate n 0 ∧
    (s.processBlock n noise).2 = s ∧
    renderBuffer channels (s.processBlock n noise).1 =
      List.replicate channels (List.replicate n 0) := by
  have hb := MySynth.processBlock_gate_off n s noise h
  refine ⟨by rw [hb], by rw [hb], ?_⟩
  rw [hb]
  rfl

theorem render_gate_off_silent_witness :
    (MySynth.default.processBlock 2 (fun _ _ => 0)).1 = List.replicate 2 0 ∧
    (MySynth.default.processBlock 2 (fun _ _ => 0)).2 = MySynth.default ∧
    renderBuffer 2 (MySynth.default.processBlock 2 (fun _ _ => 0)).1 =
      List.replicate 2 (List.replicate 2 0) :=
  render_gate_off_silent MySynth.default 2 2 (fun _ _ => 0) rfl

theorem MySynth.handleEvent_note_on (s : MySynth) (ev : VstEvent)
    (h : s.note_on = true) : (s.handleEvent ev).note_on = true := by
  cases ev with
  | midi d0 d1 d2 =>
      unfold MySynth.handleEvent
      dsimp only
      split_ifs <;> first | exact h | rfl
  | other => exact h

theorem MySynth.process_events_note_on (evs : List VstEvent) (s : MySynth)
    (h : s.note_on = true) : (s.process_events evs).note_on = true := by
  induction evs generalizing s with
  | nil => exact h
  | cons ev rest ih =>
      exact ih (s.handleEvent ev) (MySynth.handleEvent_note_on s ev h)

theorem MySynth.processSample_note_on (s : MySynth) (noise : Fin 5 → ℝ) :
    (s.processSample noise).2.note_on = s.note_on := by
  unfold MySynth.processSample
  split_ifs <;> rfl

theorem MySynth.processBlock_note_on (n : ℕ) (s : MySynth)
    (noise : ℕ → Fin 5 → ℝ) :
    (s.processBlock n noise).2.note_on = s.note_on := by
  induction n generalizing s noise with
  | zero => rfl
  | succ m ih =>
      unfold MySynth.processBlock
      dsimp only
      rw [ih, MySynth.processSample_note_on]

theorem MySynth.runActions_note_on (acts : List SynthAction) (s : MySynth)
    (h : s.note_on = true) : (s.runActions acts).note_on = true := by
  induction acts generalizing s with
  | nil => exact h
  | cons a rest ih =>
      refine ih (s.runAction a) ?_
      cases a with
      | events evs => exact MySynth.process_events_note_on evs s h
      | render n noise =>
          show (s.processBlock n noise).2.note_on = true
          rw [MySynth.processBlock_note_on]
          exact h

/-- C5: handling a note-on (status 144) event raises the gate, and no
later event handling or rendering ever lowers it: after the first
status-144 event, every reachable state still has `note_on = true`. -/
theorem note_on_never_cleared (s : MySynth) (p v : ℕ)
    (acts : List SynthAction) :
    ((s.handleEvent (VstEvent.midi 144 p v)).runActions acts).note_on = true := by
  apply MySynth.runActions_note_on
  unfold MySynth.handleEvent
  norm_num

theorem i8_of_u8_of_le (p : ℕ) (hp : p ≤ 127) : i8_of_u8 p = (p : ℤ) := by
  unfold i8_of_u8
  omega

theorem midi_pitch_to_freq_eq (p : ℕ) (hp : p ≤ 127) :
    midi_pitch_to_freq p = 440 * (2 : ℝ) ^ (((p : ℝ) - 69) / 12) := by
  unfold midi_pitch_to_freq
  rw [i8_of_u8_of_le p hp]
  push_cast
  ring

/-- C9: a note-on (status 144) event with pitch 0..127 sets oscillator 0
to the equal-tempered frequency `440 · 2^((pitch − 69)/12)` Hz and
oscillator 1 to 1.01 times that; in particular pitch 69 yields exactly
440 and 444.4 Hz. -/
theorem note_on_sets_detuned_freqs (s : MySynth) (p v : ℕ) (hp : p ≤ 127) :
    ((s.handleEvent (VstEvent.midi 144 p v)).oscillators.osc0.freq
        = 440 * (2 : ℝ) ^ (((p : ℝ) - 69) / 12)) ∧
    ((s.handleEvent (VstEvent.midi 144 p v)).oscillators.osc1.freq
        = 440 * (2 : ℝ) ^ (((p : ℝ) - 69) / 12) * 1.01) ∧
    ((s.handleEvent (VstEvent.midi 144 69 v)).oscillators.osc0.freq = 440) ∧
    ((s.handleEvent (VstEvent.midi 144 69 v)).oscillators.osc1.freq = 444.4) := by
  have h69 : midi_pitch_to_freq 69 = 440 := by
    rw [midi_pitch_to_freq_eq 69 (by norm_num)]
    norm_num
  have hfreq0 : (s.handleEvent (VstEvent.midi 144 p v)).oscillators.osc0.freq
      = midi_pitch_to_freq p := by
    unfold MySynth.handleEvent
    norm_num
  have hfreq1 : (s.handleEvent (VstEvent.midi 144 p v)).oscillators.osc1.freq
      = midi_pitch_to_freq p * 1.01 := by
    unfold MySynth.handleEvent
    norm_num
  have hfreq0v : (s.handleEvent (VstEvent.midi 144 69 v)).oscillators.osc0.freq
      = midi_pitch_to_freq 69 := by
    unfold MySynth.handleEvent
    norm_num
  have hfreq1v : (s.handleEvent (VstEvent.midi 144 69 v)).oscillators.osc1.freq
      = midi_pitch_to_freq 69 * 1.01 := by
    unfold MySynth.handleEvent
    norm_num
  refine ⟨?_, ?_, ?_, ?_⟩
  · rw [hfreq0, midi_pitch_to_freq_eq p hp]
  · rw [hfreq1, midi_pitch_to_freq_eq p hp]
  · rw [hfreq0v, h69]
  · rw [hfreq1v, h69]; norm_num

theorem note_on_sets_detuned_freqs_witness :
    (MySynth.default.handleEvent (VstEvent.midi 144 69 100)).oscillators.osc0.freq = 440 ∧
    (MySynth.default.handleEvent (VstEvent.midi 144 69 100)).oscillators.osc1.freq = 444.4 :=
  ⟨(note_on_sets_detuned_freqs MySynth.default 69 100 (by norm_num)).2.2.1,
   (note_on_sets_detuned_freqs MySynth.default 69 100 (by norm_num)).2.2.2⟩
